import Mathlib

/-!
Verification of the resolver cache in `src/packages/navi/src/Resolver.ts`.

The source is a memoized asynchronous resolution cache.  We give a shallow
embedding: the mutable JS `Map`s become insertion-ordered association lists,
the global `nextId` counter and the `WeakMap` of per-environment tables
become fields of an explicit `ResolverState` threaded through `resolveStep`,
and the two settlement continuations installed by `listenForChanges` become
the pure functions `completeResolve` / `completeReject` applied when the
in-flight promise settles.  JavaScript values that flow through promises
(settled values, rejection reasons) are modelled by the inductive type `Js`,
which carries enough structure for truthiness, `typeof x === "object"`,
the `default` property lookup of `extractDefault`, and the `NotFoundError`
shape with its optional `pathname` field.  A synchronous `throw` from a
resolvable is modelled by `Except.error`.
-/

/-- Insertion-ordered association lists standing in for JS `Map`:
`get` finds the first binding, `set` overwrites the first binding in place
(keeping insertion order) or appends a fresh one, `del` removes bindings. -/
def AList.get {α : Type} (m : List (Nat × α)) (k : Nat) : Option α :=
  (m.find? (fun p => p.1 = k)).map Prod.snd

def AList.set {α : Type} (m : List (Nat × α)) (k : Nat) (v : α) : List (Nat × α) :=
  match m with
  | [] => [(k, v)]
  | (k2, v2) :: rest =>
      if k2 = k then (k, v) :: rest else (k2, v2) :: AList.set rest k v

def AList.del {α : Type} (m : List (Nat × α)) (k : Nat) : List (Nat × α) :=
  m.filter (fun p => ¬ p.1 = k)

/-- The three-valued settlement state, from `enum Status` in the source. -/
inductive Status where
  | ready
  | busy
  | error
  deriving DecidableEq, Repr

/-- Embedding of `reduceStatuses` from the source: Error dominates,
then Busy, otherwise Ready. -/
def reduceStatuses (x : Status) (y : Status) : Status :=
  if x = Status.error ∨ y = Status.error then Status.error
  else if x = Status.busy ∨ y = Status.busy then Status.busy
  else Status.ready

/-- JavaScript values as far as the resolver inspects them: primitives,
plain objects (field lists), a generic `new Error()` object, and the
`NotFoundError` shape with its optional `pathname` string field.
`NotFoundError` is absent from `src` (only `Resolver.ts` is provided);
its shape is modelled from the spec: a recognized not-found error with an
optional path-annotation field. -/
inductive Js where
  | undef
  | null
  | boolean (b : Bool)
  | number (n : Int)
  | string (s : String)
  | obj (fields : List (String × Js))
  | genericError
  | notFoundError (pathname : Option String)

/-- JS truthiness of a modelled value (`!!x`).  Objects and error
instances are always truthy; `undefined`, `null`, `false`, `0` and the
empty string are falsy. -/
def Js.truthy : Js → Bool
  | Js.undef => false
  | Js.null => false
  | Js.boolean b => b
  | Js.number n => decide (n ≠ 0)
  | Js.string s => decide (s ≠ "")
  | Js.obj _ => true
  | Js.genericError => true
  | Js.notFoundError _ => true

/-- Whether `typeof x === "object"` holds: true for objects, error
instances, and (a JS quirk) `null`. -/
def Js.isObjectType : Js → Bool
  | Js.null => true
  | Js.obj _ => true
  | Js.genericError => true
  | Js.notFoundError _ => true
  | _ => false

/-- First binding of a field name in an object literal, mirroring
property lookup on an object whose keys are unique. -/
def lookupField (fields : List (String × Js)) (name : String) : Option Js :=
  (fields.find? (fun p => p.1 = name)).map Prod.snd

/-- Whether the value has an own `default` property (the `'default' in x`
test); only plain objects carry one in this model. -/
def Js.hasDefaultKey : Js → Bool
  | Js.obj fields => fields.any (fun p => p.1 = "default")
  | _ => false

/-- Embedding of `hasDefault` from the source:
`value && typeof value === 'object' && 'default' in value`. -/
def hasDefault (v : Js) : Bool :=
  v.truthy && v.isObjectType && v.hasDefaultKey

/-- Reading `value.default`; `Js.undef` if absent (never reached when
`hasDefault` holds). -/
def getDefault : Js → Js
  | Js.obj fields => (lookupField fields "default").getD Js.undef
  | _ => Js.undef

/-- Embedding of `extractDefault` from the source: unwrap a
`{ default: T }` envelope, pass everything else through. -/
def extractDefault (v : Js) : Js :=
  if hasDefault v then getDefault v else v

/-- Promises, as far as the synchronous part of the resolver observes
them: already settled, or still pending (tagged so distinct in-flight
promises stay distinct). -/
inductive Prom where
  | resolved (v : Js)
  | rejected (e : Js)
  | pending (tag : Nat)

/-- The derived promise `maybeValue.then(extractDefault)` built in
`resolve`: a settled value is mapped through `extractDefault`, a
rejection or a still-pending promise is passed along. -/
def promThenExtractDefault : Prom → Prom
  | Prom.resolved v => Prom.resolved (extractDefault v)
  | Prom.rejected e => Prom.rejected e
  | Prom.pending t => Prom.pending t

/-- A resolvable either returns a plain (non-thenable) value or a
promise-like value; `isPromiseLike` in the source distinguishes the two. -/
inductive MaybePromise where
  | value (v : Js)
  | prom (p : Prom)

/-- The environment, as far as `Resolver.ts` reads it: an identity key
(the `WeakMap` keys environments by reference) plus the two path fields
used to build the full pathname for error annotation. -/
structure Env where
  key : Nat
  pathname : String
  unmatchedPathnamePart : String

/-- Modelled from the spec: `joinPaths` lives in `URLTools.ts`, which is
absent from `src`; the spec treats it as an opaque path-joining utility
that builds one full path string from the matched prefix and the
unmatched remainder. -/
def joinPaths (a : String) (b : String) : String :=
  if b = "" then a else if a = "" then b else a ++ "/" ++ b

/-- A resolvable: identity key (the cache `Map` keys resolvables by
function identity) together with its behaviour.  `Except.error` models a
synchronous throw during invocation. -/
structure Resolvable where
  key : Nat
  fn : Env → Prom → Except Js MaybePromise

/-- The cached outcome record, from `type Resolution<T>` in the source. -/
structure Resolution where
  id : Nat
  status : Status
  promise : Prom
  value : Option Js := none
  error : Option Js := none

/-- The mutable fields of `class Resolver`: the id counter, the
`WeakMap` from environments to per-environment tables, and the listener
registry mapping each listener (identity key) to its subscribed ids. -/
structure ResolverState where
  nextId : Nat
  results : List (Nat × List (Nat × Resolution))
  listenerIds : List (Nat × List Nat)

/-- The per-environment table for an environment key (a fresh empty
table when none has been created yet). -/
def envTable (s : ResolverState) (envKey : Nat) : List (Nat × Resolution) :=
  (AList.get s.results envKey).getD []

/-- The data promise handed to the resolvable: `dataResolvable`'s cached
promise when it has one in the same table, otherwise
`Promise.resolve()` (an immediately resolved `undefined`). -/
def dataPromiseOf (table : List (Nat × Resolution)) :
    Option Resolvable → Prom
  | none => Prom.resolved Js.undef
  | some d =>
      match AList.get table d.key with
      | some res => res.promise
      | none => Prom.resolved Js.undef

/-- The continuation data registered by `listenForChanges` for an
asynchronous attempt: which table key and attempt id it will guard on,
the derived promise it listens to, and the full pathname captured for
not-found error annotation. -/
structure PendingCompletion where
  rkey : Nat
  id : Nat
  promise : Prom
  fullPathname : String

/-- Embedding of `Resolver.resolve`.  Returns the state after the call,
the synchronous outcome (`Except.error` models the call throwing), and
the continuation registered via `listenForChanges` in the asynchronous
case.  Mirrors the source line by line: ensure the per-environment
table exists, return a memoized Resolution verbatim, otherwise allocate
an id, invoke the resolvable, and memoize a Ready or Busy record. -/
def resolveStep (s : ResolverState) (env : Env) (resolvable : Resolvable)
    (dataResolvable : Option Resolvable) :
    ResolverState × Except Js Resolution × Option PendingCompletion :=
  let matcherResults := envTable s env.key
  let s1 : ResolverState :=
    { s with results := AList.set s.results env.key matcherResults }
  match AList.get matcherResults resolvable.key with
  | some currentResult => (s1, Except.ok currentResult, none)
  | none =>
      let dataPromise := dataPromiseOf matcherResults dataResolvable
      let id := s1.nextId
      let s2 : ResolverState := { s1 with nextId := id + 1 }
      match resolvable.fn env dataPromise with
      | Except.error e => (s2, Except.error e, none)
      | Except.ok (MaybePromise.value v) =>
          let result : Resolution :=
            { id := id, status := Status.ready, promise := Prom.resolved v,
              value := some v }
          let results2 :=
            AList.set s2.results env.key
              (AList.set matcherResults resolvable.key result)
          ({ s2 with results := results2 }, Except.ok result, none)
      | Except.ok (MaybePromise.prom p) =>
          let promise := promThenExtractDefault p
          let result : Resolution :=
            { id := id, status := Status.busy, promise := promise }
          let results2 :=
            AList.set s2.results env.key
              (AList.set matcherResults resolvable.key result)
          ({ s2 with results := results2 },
           Except.ok result,
           some { rkey := resolvable.key, id := id, promise := promise,
                  fullPathname :=
                    joinPaths env.pathname env.unmatchedPathnamePart })

/-- Embedding of `Resolver.listen`: (re)registers the listener's
subscription list, replacing any prior one. -/
def listen (s : ResolverState) (listener : Nat) (resolutionIds : List Nat) :
    ResolverState :=
  { s with listenerIds := AList.set s.listenerIds listener resolutionIds }

/-- Embedding of `Resolver.unlisten`: drops the listener entirely. -/
def unlisten (s : ResolverState) (listener : Nat) : ResolverState :=
  { s with listenerIds := AList.del s.listenerIds listener }

/-- The listeners invoked for a settled id: the source snapshots
`listenerIds.entries()` and calls, in insertion order, each listener
whose id list contains the settled id. -/
def notifyTargets (listeners : List (Nat × List Nat)) (id : Nat) :
    List Nat :=
  (listeners.filter (fun p => p.2.contains id)).map Prod.fst

/-- The fulfilment continuation from `listenForChanges`: re-reads the
current record for the key and applies the Ready update only when a
record exists and its id still equals the attempt id.  Returns the new
table and `didUpdate`. -/
def onPromResolve (table : List (Nat × Resolution)) (rkey : Nat) (id : Nat)
    (promise : Prom) (value : Js) : List (Nat × Resolution) × Bool :=
  match AList.get table rkey with
  | some currentResult =>
      if currentResult.id = id then
        (AList.set table rkey
          { id := currentResult.id, status := Status.ready,
            promise := promise, value := some value }, true)
      else (table, false)
  | none => (table, false)

/-- Whether `!error.pathname` holds for the field: the annotation guard
fires when the field is absent or holds the (falsy) empty string. -/
def pathnameFalsy : Option String → Bool
  | none => true
  | some s => decide (s = "")

/-- The in-place mutation `error.pathname = fullPathname` applied when
the rejection is a `NotFoundError` with a falsy `pathname`. -/
def annotateNotFound (error : Js) (fullPathname : String) : Js :=
  match error with
  | Js.notFoundError p =>
      if pathnameFalsy p then Js.notFoundError (some fullPathname)
      else error
  | _ => error

/-- The rejection continuation from `listenForChanges`: annotates an
unannotated not-found error (before the guard), then applies the Error
update only when a record exists for the key with the attempt's id,
storing `error || new Error()`.  Returns the new table, `didUpdate`,
and the (possibly mutated) error object. -/
def onPromReject (table : List (Nat × Resolution)) (rkey : Nat) (id : Nat)
    (promise : Prom) (error : Js) (fullPathname : String) :
    List (Nat × Resolution) × Bool × Js :=
  let currentResult := AList.get table rkey
  let error2 := annotateNotFound error fullPathname
  match currentResult with
  | some cur =>
      if cur.id = id then
        (AList.set table rkey
          { id := cur.id, status := Status.error, promise := promise,
            error := some (if error2.truthy then error2 else Js.genericError) },
         true, error2)
      else (table, false, error2)
  | none => (table, false, error2)

/-- One full fulfilment settlement: the update continuation followed by
the notification continuation (`.then(didUpdate => ...)`), which fans
out to the current listener registry only when an update was applied.
Returns the new table and the list of invoked listeners. -/
def completeResolve (table : List (Nat × Resolution))
    (listeners : List (Nat × List Nat)) (rkey : Nat) (id : Nat)
    (promise : Prom) (value : Js) : List (Nat × Resolution) × List Nat :=
  let r := onPromResolve table rkey id promise value
  (r.1, if r.2 then notifyTargets listeners id else [])

/-- One full rejection settlement: annotation and guarded Error update,
then notification when an update was applied.  Also returns the error
object as left by the handler, to track the in-place mutation. -/
def completeReject (table : List (Nat × Resolution))
    (listeners : List (Nat × List Nat)) (rkey : Nat) (id : Nat)
    (promise : Prom) (error : Js) (fullPathname : String) :
    List (Nat × Resolution) × List Nat × Js :=
  let r := onPromReject table rkey id promise error fullPathname
  (r.1, if r.2.1 then notifyTargets listeners id else [], r.2.2)

/-! ### Helper lemmas about the association-list model -/

theorem AList.get_cons {α : Type} {k2 k : Nat} {v2 : α}
    {rest : List (Nat × α)} :
    AList.get ((k2, v2) :: rest) k
      = if k2 = k then some v2 else AList.get rest k := by
  by_cases h : k2 = k
  · simp [AList.get, List.find?_cons_of_pos, h]
  · simp [AList.get, List.find?_cons_of_neg, h]

theorem AList.set_eq_of_get {α : Type} {m : List (Nat × α)} {k : Nat} {v : α}
    (h : AList.get m k = some v) : AList.set m k v = m := by
  induction m with
  | nil => simp [AList.get] at h
  | cons p rest ih =>
      obtain ⟨k2, v2⟩ := p
      rw [AList.get_cons] at h
      by_cases hk : k2 = k
      · simp [hk] at h
        subst hk
        subst h
        simp [AList.set]
      · simp [hk] at h
        simp [AList.set, hk, ih h]

theorem AList.get_set {α : Type} (m : List (Nat × α)) (k : Nat) (v : α) :
    AList.get (AList.set m k v) k = some v := by
  induction m with
  | nil => simp [AList.set, AList.get_cons]
  | cons p rest ih =>
      obtain ⟨k2, v2⟩ := p
      by_cases hk : k2 = k
      · simp [AList.set, hk, AList.get_cons]
      · simp [AList.set, hk, AList.get_cons, ih]

theorem AList.get_eq_of_mem {α : Type} {reg : List (Nat × α)} {l : Nat}
    {ids : α} (hnd : (reg.map Prod.fst).Nodup) (hm : (l, ids) ∈ reg) :
    AList.get reg l = some ids := by
  induction reg with
  | nil => simp at hm
  | cons p rest ih =>
      obtain ⟨k2, v2⟩ := p
      simp only [List.map_cons, List.nodup_cons] at hnd
      rcases List.mem_cons.mp hm with heq | hmem
      · rw [AList.get_cons]
        have hk : k2 = l := by cases heq; rfl
        have hv : v2 = ids := by cases heq; rfl
        simp [hk, hv]
      · have hk : k2 ≠ l := by
          intro hkl
          exact hnd.1 (hkl ▸ List.mem_map.mpr ⟨(l, ids), hmem, rfl⟩)
        rw [AList.get_cons]
        simp [hk]
        exact ih hnd.2 hmem

theorem AList.mem_of_get {α : Type} {reg : List (Nat × α)} {l : Nat}
    {ids : α} (h : AList.get reg l = some ids) : (l, ids) ∈ reg := by
  unfold AList.get at h
  cases hf : reg.find? (fun p => p.1 = l) with
  | none => rw [hf] at h; simp at h
  | some p =>
      rw [hf] at h
      have hp := List.mem_of_find?_eq_some hf
      have hl := List.find?_some hf
      obtain ⟨k2, v2⟩ := p
      simp at hl
      simp at h
      subst hl
      subst h
      exact hp

/-! ### Claim theorems -/

/-- Claim C5: `reduceStatuses` returns Error when either operand is
Error, otherwise Busy when either operand is Busy, otherwise Ready; in
particular `combine(Ready, Busy) = Busy`, `combine(Busy, Error) = Error`
and `combine(Ready, Ready) = Ready`, and the operation is commutative
and associative. -/
theorem reduceStatuses_algebra :
    (∀ y, reduceStatuses Status.error y = Status.error
        ∧ reduceStatuses y Status.error = Status.error) ∧
    (reduceStatuses Status.busy Status.busy = Status.busy
      ∧ reduceStatuses Status.ready Status.busy = Status.busy
      ∧ reduceStatuses Status.busy Status.ready = Status.busy
      ∧ reduceStatuses Status.busy Status.error = Status.error
      ∧ reduceStatuses Status.ready Status.ready = Status.ready) ∧
    (∀ x y, reduceStatuses x y = reduceStatuses y x) ∧
    (∀ x y z, reduceStatuses (reduceStatuses x y) z
        = reduceStatuses x (reduceStatuses y z)) := by
  refine ⟨?_, ?_, ?_, ?_⟩
  · intro y; cases y <;> exact ⟨rfl, rfl⟩
  · exact ⟨rfl, rfl, rfl, rfl, rfl⟩
  · intro x y; cases x <;> cases y <;> rfl
  · intro x y z; cases x <;> cases y <;> cases z <;> rfl

/-- Claim C7: a value an asynchronous resolvable's promise settles to is
unwrapped to its `default` property when it is an object carrying one;
every other shape — objects without the property, `null`, and
non-objects — passes through unchanged; and the derived promise built by
`resolve` applies exactly this unwrapping to the settled value. -/
theorem extractDefault_unwraps :
    (∀ fields d, lookupField fields "default" = some d →
        extractDefault (Js.obj fields) = d) ∧
    (∀ fields, lookupField fields "default" = none →
        extractDefault (Js.obj fields) = Js.obj fields) ∧
    (∀ v, (∀ fields, v ≠ Js.obj fields) → extractDefault v = v) ∧
    (∀ v, promThenExtractDefault (Prom.resolved v)
        = Prom.resolved (extractDefault v)) := by
  refine ⟨?_, ?_, ?_, fun v => rfl⟩
  · intro fields d h
    have hany : fields.any (fun p => p.1 = "default") = true := by
      unfold lookupField at h
      cases hf : fields.find? (fun p => p.1 = "default") with
      | none => rw [hf] at h; simp at h
      | some p =>
          have hp := List.mem_of_find?_eq_some hf
          have hpr := List.find?_some hf
          exact List.any_eq_true.mpr ⟨p, hp, hpr⟩
    simp [extractDefault, hasDefault, Js.truthy, Js.isObjectType,
      Js.hasDefaultKey, hany, getDefault, h]
  · intro fields h
    have hany : fields.any (fun p => p.1 = "default") = false := by
      cases ha : fields.any (fun p => p.1 = "default") with
      | false => rfl
      | true =>
          obtain ⟨q, hq, hq1⟩ := List.any_eq_true.mp ha
          have : (fields.find? (fun p => p.1 = "default")).isSome :=
            List.find?_isSome.mpr ⟨q, hq, hq1⟩
          unfold lookupField at h
          cases hf : fields.find? (fun p => p.1 = "default") with
          | none => rw [hf] at this; simp at this
          | some p => rw [hf] at h; simp at h
    simp [extractDefault, hasDefault, Js.hasDefaultKey, hany]
  · intro v h
    cases v
    case obj fields => exact absurd rfl (h fields)
    all_goals
      simp [extractDefault, hasDefault, Js.truthy, Js.isObjectType,
        Js.hasDefaultKey]

/-- Claim C9 counterexample: a not-found error whose pathname field is
already set — to the (falsy) empty string — is not left unchanged: the
rejection handler overwrites it with the full path, because the source
guards on `!error.pathname` (falsiness), not on the field being absent. -/
theorem annotateNotFound_set_empty_cex :
    annotateNotFound (Js.notFoundError (some "")) "/parent/child"
      ≠ Js.notFoundError (some "") ∧
    annotateNotFound (Js.notFoundError (some "")) "/parent/child"
      = Js.notFoundError (some "/parent/child") := by
  refine ⟨?_, rfl⟩
  intro h
  simp [annotateNotFound, pathnameFalsy] at h

/-- Claim C9 (amended): a not-found error whose pathname field is falsy
(absent or the empty string) is stamped with the full path; one already
set to a non-empty string is left unchanged; the stamping is idempotent
and touches nothing but not-found errors; and the full path captured for
an asynchronous attempt is the environment's matched prefix joined with
its unmatched remainder. -/
theorem annotateNotFound_spec (p : String) :
    (∀ pn, pathnameFalsy pn = true →
        annotateNotFound (Js.notFoundError pn) p = Js.notFoundError (some p)) ∧
    (∀ s2, s2 ≠ "" →
        annotateNotFound (Js.notFoundError (some s2)) p
          = Js.notFoundError (some s2)) ∧
    (∀ e, annotateNotFound (annotateNotFound e p) p = annotateNotFound e p) ∧
    (∀ e, (∀ pn, e ≠ Js.notFoundError pn) → annotateNotFound e p = e) ∧
    (∀ s env r d pc, (resolveStep s env r d).2.2 = some pc →
        pc.fullPathname = joinPaths env.pathname env.unmatchedPathnamePart) := by
  refine ⟨?_, ?_, ?_, ?_, ?_⟩
  · intro pn h
    simp [annotateNotFound, h]
  · intro s2 h
    simp [annotateNotFound, pathnameFalsy, h]
  · intro e
    cases e with
    | notFoundError pn =>
        by_cases hf : pathnameFalsy pn = true
        · simp only [annotateNotFound, hf, if_pos]
          by_cases hp : p = ""
          · simp [pathnameFalsy, hp]
          · simp [pathnameFalsy, hp]
        · simp only [annotateNotFound, hf]
          simp [hf]
    | undef => rfl
    | null => rfl
    | boolean b => rfl
    | number n => rfl
    | string s2 => rfl
    | obj fields => rfl
    | genericError => rfl
  · intro e h
    cases e with
    | notFoundError pn => exact absurd rfl (h pn)
    | undef => rfl
    | null => rfl
    | boolean b => rfl
    | number n => rfl
    | string s2 => rfl
    | obj fields => rfl
    | genericError => rfl
  · intro s env r d pc h
    simp only [resolveStep] at h
    split at h
    · simp at h
    · split at h
      · simp at h
      · simp at h
      · simp only [Option.some_inj] at h
        subst h
        rfl

/-- Claim C1: when the per-environment table already holds a Resolution
for the resolvable's key, `resolve` returns that Resolution verbatim,
leaves the whole resolver state (including the id counter) unchanged and
registers no continuation; the result is the same for every resolvable
carrying that key whatever its behaviour, so the resolvable is never
invoked again for that environment. -/
theorem resolve_memoized (s : ResolverState) (env : Env)
    (d : Option Resolvable) (rkey : Nat) (table : List (Nat × Resolution))
    (res : Resolution)
    (henv : AList.get s.results env.key = some table)
    (hres : AList.get table rkey = some res) :
    ∀ r : Resolvable, r.key = rkey →
      resolveStep s env r d = (s, Except.ok res, none) := by
  intro r hk
  have h1 : envTable s env.key = table := by
    simp [envTable, henv]
  simp only [resolveStep, h1, hk, hres]
  simp [AList.set_eq_of_get henv]

/-- A state with an empty cache, a fresh counter and no listeners, used
by the concrete scenarios. -/
def stateA : ResolverState :=
  { nextId := 1, results := [], listenerIds := [] }

/-- An environment used by the concrete scenarios. -/
def envA : Env :=
  { key := 0, pathname := "/parent", unmatchedPathnamePart := "child" }

/-- A resolvable that throws synchronously when invoked. -/
def throwingResolvable : Resolvable :=
  { key := 1, fn := fun _ _ => Except.error (Js.string "boom") }

/-- Claim C3 counterexample: `resolve` propagates a synchronous throw
from the resolvable it invokes — the call itself throws (modelled by
`Except.error`), rather than surfacing the failure through a returned
Resolution's rejected promise and error/status fields. -/
theorem resolve_sync_throw_cex :
    (resolveStep stateA envA throwingResolvable none).2.1
      = Except.error (Js.string "boom") := rfl

/-- Claim C3 (amended): `resolve` never throws synchronously provided
the invoked resolvable itself returns — a plain value or a promise —
instead of throwing; every failure delivered through a returned promise
surfaces only via the Resolution's rejected promise and its error and
status fields. -/
theorem resolve_no_sync_throw (s : ResolverState) (env : Env)
    (r : Resolvable) (d : Option Resolvable)
    (h : ∀ dp, ∃ m, r.fn env dp = Except.ok m) :
    ∃ res, (resolveStep s env r d).2.1 = Except.ok res := by
  cases hm : AList.get (envTable s env.key) r.key with
  | some cur =>
      refine ⟨cur, ?_⟩
      simp only [resolveStep, hm]
  | none =>
      obtain ⟨m, hfn⟩ := h (dataPromiseOf (envTable s env.key) d)
      cases m with
      | value v =>
          refine ⟨{ id := s.nextId, status := Status.ready,
                    promise := Prom.resolved v, value := some v }, ?_⟩
          simp only [resolveStep, hm, hfn]
      | prom p =>
          refine ⟨{ id := s.nextId, status := Status.busy,
                    promise := promThenExtractDefault p }, ?_⟩
          simp only [resolveStep, hm, hfn]

/-- Claim C6: a resolvable returning a plain (non-promise-shaped) value
immediately yields a memoized Ready Resolution whose `value` is that
value and whose `promise` is an already-resolved promise of the same
value, with a fresh id and no continuation registered. -/
theorem resolve_sync_ready (s : ResolverState) (env : Env)
    (r : Resolvable) (d : Option Resolvable) (v : Js)
    (hmiss : AList.get (envTable s env.key) r.key = none)
    (hfn : r.fn env (dataPromiseOf (envTable s env.key) d)
        = Except.ok (MaybePromise.value v)) :
    ∃ res, (resolveStep s env r d).2.1 = Except.ok res ∧
      res.status = Status.ready ∧ res.value = some v ∧
      res.promise = Prom.resolved v ∧ res.id = s.nextId ∧
      AList.get (envTable (resolveStep s env r d).1 env.key) r.key
        = some res ∧
      (resolveStep s env r d).2.2 = none := by
  refine ⟨{ id := s.nextId, status := Status.ready,
            promise := Prom.resolved v, value := some v },
    ?_, rfl, rfl, rfl, rfl, ?_, ?_⟩
  · simp only [resolveStep, hmiss, hfn]
  · simp only [resolveStep, hmiss, hfn]
    simp [envTable, AList.get_set]
  · simp only [resolveStep, hmiss, hfn]

/-- Claim C2: an asynchronous completion for attempt id `n` replaces the
table entry and triggers listener notification exactly when a record
still exists for the key with id `n`; when the entry was replaced with a
different id, or removed, both the fulfilment and the rejection
completions leave the table untouched and notify no listener. -/
theorem completion_staleness_guard (table : List (Nat × Resolution))
    (listeners : List (Nat × List Nat)) (rkey n : Nat) (promise : Prom)
    (v e : Js) (path : String) :
    ((∀ cur, AList.get table rkey = some cur → cur.id ≠ n) →
        completeResolve table listeners rkey n promise v = (table, []) ∧
        completeReject table listeners rkey n promise e path
          = (table, [], annotateNotFound e path)) ∧
    (∀ cur, AList.get table rkey = some cur → cur.id = n →
        (completeResolve table listeners rkey n promise v).2
            = notifyTargets listeners n ∧
        AList.get (completeResolve table listeners rkey n promise v).1 rkey
            = some { id := n, status := Status.ready, promise := promise,
                     value := some v } ∧
        (completeReject table listeners rkey n promise e path).2.1
            = notifyTargets listeners n) := by
  constructor
  · intro hstale
    constructor
    · unfold completeResolve onPromResolve
      cases hm : AList.get table rkey with
      | none => simp [hm]
      | some cur => simp [hm, hstale cur hm]
    · unfold completeReject onPromReject
      cases hm : AList.get table rkey with
      | none => simp [hm]
      | some cur => simp [hm, hstale cur hm]
  · intro cur hm hid
    refine ⟨?_, ?_, ?_⟩
    · unfold completeResolve onPromResolve
      simp [hm, hid]
    · unfold completeResolve onPromResolve
      simp [hm, hid, AList.get_set]
    · unfold completeReject onPromReject
      simp [hm, hid]

/-- Stamping the pathname never changes truthiness: not-found errors are
objects, hence truthy, before and after. -/
theorem annotateNotFound_truthy (e : Js) (path : String) :
    (annotateNotFound e path).truthy = e.truthy := by
  cases e
  case notFoundError pn =>
    simp only [annotateNotFound]
    split <;> rfl
  all_goals rfl

/-- Claim C8: when an asynchronous attempt rejects and the staleness
guard passes, the table entry becomes an Error Resolution carrying the
attempt's id and the settled promise, whose error field is the (possibly
path-stamped) rejection value — or a fresh generic error object when the
rejection value is falsy — so the stored error is always truthy. -/
theorem reject_stores_truthy_error (table : List (Nat × Resolution))
    (rkey n : Nat) (promise : Prom) (e : Js) (path : String)
    (cur : Resolution) (hm : AList.get table rkey = some cur)
    (hid : cur.id = n) :
    ∃ stored,
      AList.get (onPromReject table rkey n promise e path).1 rkey
          = some stored ∧
      (onPromReject table rkey n promise e path).2.1 = true ∧
      stored.id = n ∧ stored.status = Status.error ∧
      stored.promise = promise ∧ stored.value = none ∧
      (e.truthy = true → stored.error = some (annotateNotFound e path)) ∧
      (e.truthy = false → stored.error = some Js.genericError) ∧
      (∀ err, stored.error = some err → err.truthy = true) := by
  refine ⟨{ id := n, status := Status.error, promise := promise,
            error := some (if (annotateNotFound e path).truthy
              then annotateNotFound e path else Js.genericError) },
    ?_, ?_, rfl, rfl, rfl, rfl, ?_, ?_, ?_⟩
  · unfold onPromReject
    simp [hm, hid, AList.get_set]
  · unfold onPromReject
    simp [hm, hid]
  · intro ht
    simp [annotateNotFound_truthy, ht]
  · intro ht
    simp [annotateNotFound_truthy, ht]
  · intro err herr
    simp only [Option.some_inj] at herr
    subst herr
    cases hv : (annotateNotFound e path).truthy with
    | true => simp [hv]
    | false => simp [hv, Js.truthy]

/-- Claim C10: a rejection completion whose staleness guard fails still
mutates a shared unannotated not-found error: the source stamps
`error.pathname` before the id-equality check, so the completion stores
nothing and notifies nobody, yet hands back the error object with its
pathname set to the full path. -/
theorem stale_reject_still_mutates (table : List (Nat × Resolution))
    (listeners : List (Nat × List Nat)) (rkey n : Nat) (promise : Prom)
    (pn : Option String) (path : String)
    (hfalsy : pathnameFalsy pn = true)
    (hstale : ∀ cur, AList.get table rkey = some cur → cur.id ≠ n) :
    completeReject table listeners rkey n promise (Js.notFoundError pn) path
      = (table, [], Js.notFoundError (some path)) := by
  unfold completeReject onPromReject
  cases hm : AList.get table rkey with
  | none => simp [hm, annotateNotFound, hfalsy]
  | some cur => simp [hm, hstale cur hm, annotateNotFound, hfalsy]

/-- Claim C4: for a settled id, the invoked listeners are exactly those
whose current subscription list contains that id, each invoked at most
once, in registration insertion order (the invoked list is a sublist of
the registry's key sequence); a listener subscribed only to other ids is
not invoked; and after `unlisten` a listener is never notified again.
Listeners are opaque identity keys in this model, so an invocation
(which the source performs with no arguments) is represented as
membership in the invoked-key list. -/
theorem listener_fanout (reg : List (Nat × List Nat)) (n l : Nat)
    (hnd : (reg.map Prod.fst).Nodup) :
    (l ∈ notifyTargets reg n
        ↔ ∃ ids, AList.get reg l = some ids ∧ n ∈ ids) ∧
    (notifyTargets reg n).Nodup ∧
    List.Sublist (notifyTargets reg n) (reg.map Prod.fst) ∧
    (∀ s : ResolverState, s.listenerIds = reg →
        l ∉ notifyTargets (unlisten s l).listenerIds n) := by
  have hsub : List.Sublist (notifyTargets reg n) (reg.map Prod.fst) :=
    List.Sublist.map Prod.fst
      (List.filter_sublist reg)
  refine ⟨?_, List.Nodup.sublist hsub hnd, hsub, ?_⟩
  · constructor
    · intro h
      obtain ⟨p, hp, hpl⟩ := List.mem_map.mp h
      obtain ⟨hpreg, hpq⟩ := List.mem_filter.mp hp
      obtain ⟨k2, ids⟩ := p
      simp only at hpl
      subst hpl
      refine ⟨ids, AList.get_eq_of_mem hnd hpreg, ?_⟩
      simpa using hpq
    · rintro ⟨ids, hget, hn⟩
      have hm2 := AList.mem_of_get hget
      apply List.mem_map.mpr
      refine ⟨(l, ids), List.mem_filter.mpr ⟨hm2, ?_⟩, rfl⟩
      simpa using hn
  · intro s hs hcontra
    obtain ⟨p, hp, hpl⟩ := List.mem_map.mp hcontra
    obtain ⟨hpreg, _⟩ := List.mem_filter.mp hp
    rw [show (unlisten s l).listenerIds = AList.del reg l from by
      simp [unlisten, hs]] at hpreg
    obtain ⟨_, hne⟩ := List.mem_filter.mp hpreg
    simp at hne
    exact hne hpl

/-! ### Concrete fixtures and witnesses -/

/-- A concrete memoized Resolution used by the witnesses. -/
def resA : Resolution :=
  { id := 7, status := Status.ready,
    promise := Prom.resolved (Js.number 42), value := some (Js.number 42) }

/-- A per-environment table already holding `resA` under resolvable key 1. -/
def tableB : List (Nat × Resolution) := [(1, resA)]

/-- A listener registry: listener 5 watches id 7, listener 6 watches id 8. -/
def listenersB : List (Nat × List Nat) := [(5, [7]), (6, [8])]

/-- A state whose table for `envA` already holds `resA`. -/
def stateB : ResolverState :=
  { nextId := 9, results := [(0, tableB)], listenerIds := listenersB }

/-- A resolvable returning the plain value 42. -/
def plainResolvable : Resolvable :=
  { key := 2, fn := fun _ _ => Except.ok (MaybePromise.value (Js.number 42)) }

/-- Witness for `resolve_memoized`: a second call for the cached pair
returns `resA` verbatim with the state untouched, whatever the
resolvable's behaviour. -/
theorem resolve_memoized_witness :
    resolveStep stateB envA
        { key := 1, fn := fun _ _ => Except.error Js.null } none
      = (stateB, Except.ok resA, none) :=
  resolve_memoized stateB envA none 1 tableB resA rfl rfl
    { key := 1, fn := fun _ _ => Except.error Js.null } rfl

/-- Witness for `resolve_no_sync_throw` at a non-throwing resolvable. -/
theorem resolve_no_sync_throw_witness :
    ∃ res, (resolveStep stateA envA plainResolvable none).2.1
      = Except.ok res :=
  resolve_no_sync_throw stateA envA plainResolvable none
    (fun _ => ⟨MaybePromise.value (Js.number 42), rfl⟩)

/-- Witness for `resolve_sync_ready` at the resolvable returning 42. -/
theorem resolve_sync_ready_witness :
    ∃ res, (resolveStep stateA envA plainResolvable none).2.1
        = Except.ok res ∧
      res.status = Status.ready ∧ res.value = some (Js.number 42) ∧
      res.promise = Prom.resolved (Js.number 42) ∧ res.id = stateA.nextId ∧
      AList.get
          (envTable (resolveStep stateA envA plainResolvable none).1
            envA.key) plainResolvable.key = some res ∧
      (resolveStep stateA envA plainResolvable none).2.2 = none :=
  resolve_sync_ready stateA envA plainResolvable none (Js.number 42) rfl rfl

/-- Witness for `completion_staleness_guard`: a stale completion (id 99
against the cached id 7) is discarded, and a current one (id 7) applies
its update and notifies. -/
theorem completion_staleness_guard_witness :
    (completeResolve tableB listenersB 1 99 (Prom.resolved Js.null) Js.null
        = (tableB, []) ∧
      completeReject tableB listenersB 1 99 (Prom.resolved Js.null) Js.null
        "/p" = (tableB, [], annotateNotFound Js.null "/p")) ∧
    ((completeResolve tableB listenersB 1 7 (Prom.resolved Js.null)
        Js.null).2 = notifyTargets listenersB 7 ∧
      AList.get
        (completeResolve tableB listenersB 1 7 (Prom.resolved Js.null)
          Js.null).1 1
        = some { id := 7, status := Status.ready,
                 promise := Prom.resolved Js.null, value := some Js.null } ∧
      (completeReject tableB listenersB 1 7 (Prom.resolved Js.null) Js.null
        "/p").2.1 = notifyTargets listenersB 7) :=
  ⟨(completion_staleness_guard tableB listenersB 1 99
      (Prom.resolved Js.null) Js.null Js.null "/p").1
      (fun cur hcur => by
        have h7 : AList.get tableB 1 = some resA := rfl
        rw [h7] at hcur
        injection hcur with h8
        subst h8
        decide),
    (completion_staleness_guard tableB listenersB 1 7
      (Prom.resolved Js.null) Js.null Js.null "/p").2 resA rfl rfl⟩

/-- Witness for `reject_stores_truthy_error` at the cached attempt. -/
theorem reject_stores_truthy_error_witness :
    ∃ stored,
      AList.get
          (onPromReject tableB 1 7 (Prom.rejected Js.null) Js.null "/p").1 1
        = some stored ∧
      (onPromReject tableB 1 7 (Prom.rejected Js.null) Js.null "/p").2.1
        = true ∧
      stored.id = 7 ∧ stored.status = Status.error ∧
      stored.promise = Prom.rejected Js.null ∧ stored.value = none ∧
      (Js.truthy Js.null = true →
        stored.error = some (annotateNotFound Js.null "/p")) ∧
      (Js.truthy Js.null = false → stored.error = some Js.genericError) ∧
      (∀ err, stored.error = some err → err.truthy = true) :=
  reject_stores_truthy_error tableB 1 7 (Prom.rejected Js.null) Js.null
    "/p" resA rfl rfl

/-- Witness for `stale_reject_still_mutates`: a stale rejection with an
unannotated not-found error stores nothing, notifies nobody, yet hands
back the error stamped with the full path. -/
theorem stale_reject_still_mutates_witness :
    completeReject tableB listenersB 1 99 (Prom.rejected Js.null)
        (Js.notFoundError none) "/parent/child"
      = (tableB, [], Js.notFoundError (some "/parent/child")) :=
  stale_reject_still_mutates tableB listenersB 1 99 (Prom.rejected Js.null)
    none "/parent/child" rfl
    (fun cur hcur => by
      have h7 : AList.get tableB 1 = some resA := rfl
      rw [h7] at hcur
      injection hcur with h8
      subst h8
      decide)

/-- Witness for `listener_fanout` on the concrete registry. -/
theorem listener_fanout_witness :
    (5 ∈ notifyTargets listenersB 7
        ↔ ∃ ids, AList.get listenersB 5 = some ids ∧ 7 ∈ ids) ∧
    (notifyTargets listenersB 7).Nodup ∧
    List.Sublist (notifyTargets listenersB 7) (listenersB.map Prod.fst) ∧
    (∀ s : ResolverState, s.listenerIds = listenersB →
        5 ∉ notifyTargets (unlisten s 5).listenerIds 7) :=
  listener_fanout listenersB 7 5 (by decide)

/-- Witness for `extractDefault_unwraps` on concrete shapes. -/
theorem extractDefault_unwraps_witness :
    extractDefault (Js.obj [("default", Js.string "x")]) = Js.string "x" ∧
    extractDefault (Js.obj [("other", Js.string "x")])
      = Js.obj [("other", Js.string "x")] ∧
    extractDefault (Js.number 42) = Js.number 42 :=
  ⟨extractDefault_unwraps.1 [("default", Js.string "x")] (Js.string "x") rfl,
   extractDefault_unwraps.2.1 [("other", Js.string "x")] rfl,
   extractDefault_unwraps.2.2.1 (Js.number 42)
     (fun _ h => Js.noConfusion h)⟩

/-- Witness for `annotateNotFound_spec` on concrete errors. -/
theorem annotateNotFound_spec_witness :
    annotateNotFound (Js.notFoundError none) "/parent/child"
      = Js.notFoundError (some "/parent/child") ∧
    annotateNotFound (Js.notFoundError (some "/x")) "/parent/child"
      = Js.notFoundError (some "/x") ∧
    annotateNotFound Js.genericError "/parent/child" = Js.genericError :=
  ⟨(annotateNotFound_spec "/parent/child").1 none rfl,
   (annotateNotFound_spec "/parent/child").2.1 "/x" (by decide),
   (annotateNotFound_spec "/parent/child").2.2.2.1 Js.genericError
     (fun _ h => Js.noConfusion h)⟩
